import Mathlib

/-!
Verification development for the plox lexical front end
(repository shenanigansd/programming-language, path languages/lox/plox).

Shallow embedding of:
- src/plox/token.py (the Token model, a frozen dataclass),
- src/plox/main.py (error sink, run, run_prompt, run_file, HAD_ERROR flag),
- src/plox/__main__.py and the stale top-level plox/__main__.py (argv dispatch),
- the Scanner (src/plox/scanner.py is not part of the sources, so it is
  modelled from the specification, section 4.2), and the TokenType
  enumeration (src/plox/token_types.py, likewise modelled from the spec).

Python-level effects are made explicit: raising is Except.error, printing is
an accumulated list of strings, the module-global HAD_ERROR flag is threaded
as a Bool, and process termination is an Outcome value.
-/

/-- Python exception classes that the modelled code can raise. -/
inductive PyError where
  | typeError
  | nameError
  | eofError
  | frozenInstanceError
  | fileNotFoundError
  deriving DecidableEq

/-- Python runtime values occurring in the modelled code: None, str, int,
and float.  Python floats produced by float(lexeme) are modelled exactly as
rationals; no claim depends on binary rounding. -/
inductive PyVal where
  | none
  | str (s : String)
  | int (n : Int)
  | num (q : ℚ)
  deriving DecidableEq

/-- Python binary + on the values above: str+str concatenates, numbers add,
any str/number mix raises TypeError.  This is the operator used by report
in src/plox/main.py. -/
def pyAdd : PyVal → PyVal → Except PyError PyVal
  | .str a, .str b => Except.ok (.str (a ++ b))
  | .int a, .int b => Except.ok (.int (a + b))
  | .num a, .num b => Except.ok (.num (a + b))
  | .int a, .num b => Except.ok (.num ((a : ℚ) + b))
  | .num a, .int b => Except.ok (.num (a + (b : ℚ)))
  | _, _ => Except.error .typeError

/-- Decimal digits of a natural number, most significant first; the first
argument is recursion fuel (the number itself is always enough). -/
def natDigitsAux : Nat → Nat → List Char
  | 0, _ => []
  | fuel + 1, n =>
    if n < 10 then [Nat.digitChar n]
    else natDigitsAux fuel (n / 10) ++ [Nat.digitChar (n % 10)]

/-- Python str() of a non-negative integer. -/
def natStr (n : Nat) : String := (natDigitsAux (n + 1) n).asString

/-- Python str() of an integer. -/
def intStr (i : Int) : String :=
  if i < 0 then "-" ++ natStr i.natAbs else natStr i.natAbs

/-- Decimal rendering of a Python float value, as repr produces for floats
obtained from decimal number lexemes (terminating decimals): minimal digits,
always at least one digit after the point. -/
def floatRepr (x : ℚ) : String :=
  let sign := if x < 0 then "-" else ""
  let n := x.num.natAbs
  let d := x.den
  match (List.range 40).find? (fun k => 10 ^ k % d == 0) with
  | some k =>
    if k == 0 then sign ++ natStr n ++ ".0"
    else
      let raw := (natStr (n * (10 ^ k / d))).toList
      let ds := if raw.length ≤ k then List.replicate (k + 1 - raw.length) '0' ++ raw else raw
      sign ++ (ds.take (ds.length - k)).asString ++ "." ++ (ds.drop (ds.length - k)).asString
  | none => sign ++ natStr n ++ "/" ++ natStr d

/-- Python str() of a value (what print displays for it). -/
def pyStr : PyVal → String
  | .none => "None"
  | .str s => s
  | .int n => intStr n
  | .num q => floatRepr q

/-- Python repr() of a value (used inside the dataclass repr of Token). -/
def PyVal.reprStr : PyVal → String
  | .none => "None"
  | .str s => "\x27" ++ s ++ "\x27"
  | .int n => intStr n
  | .num q => floatRepr q

/-- How a modelled process run ends: fall through normally, call exit(code),
or die on an uncaught exception. -/
inductive Outcome where
  | normal
  | exited (code : Nat)
  | raised (e : PyError)
  deriving DecidableEq

namespace Plox

/-- Modelled from the spec: src/plox/token_types.py is not among the
sources; the TokenType enumeration is reconstructed from the closed list of
lexical categories in section 3 of the specification. -/
inductive TokenType where
  | LEFT_PAREN | RIGHT_PAREN | LEFT_BRACE | RIGHT_BRACE
  | COMMA | DOT | MINUS | PLUS | SEMICOLON | SLASH | STAR
  | BANG | BANG_EQUAL | EQUAL | EQUAL_EQUAL
  | GREATER | GREATER_EQUAL | LESS | LESS_EQUAL
  | IDENTIFIER | STRING | NUMBER
  | AND | CLASS | ELSE | FALSE | FUN | FOR | IF | NIL | OR
  | PRINT | RETURN | SUPER | THIS | TRUE | VAR | WHILE
  | EOF
  deriving DecidableEq

/-- Name of a TokenType member as it appears in printed diagnostics
(the member-value part of the enum repr is elided because
src/plox/token_types.py is not among the sources). -/
def TokenType.reprName : TokenType → String
  | .LEFT_PAREN => "TokenType.LEFT_PAREN"
  | .RIGHT_PAREN => "TokenType.RIGHT_PAREN"
  | .LEFT_BRACE => "TokenType.LEFT_BRACE"
  | .RIGHT_BRACE => "TokenType.RIGHT_BRACE"
  | .COMMA => "TokenType.COMMA"
  | .DOT => "TokenType.DOT"
  | .MINUS => "TokenType.MINUS"
  | .PLUS => "TokenType.PLUS"
  | .SEMICOLON => "TokenType.SEMICOLON"
  | .SLASH => "TokenType.SLASH"
  | .STAR => "TokenType.STAR"
  | .BANG => "TokenType.BANG"
  | .BANG_EQUAL => "TokenType.BANG_EQUAL"
  | .EQUAL => "TokenType.EQUAL"
  | .EQUAL_EQUAL => "TokenType.EQUAL_EQUAL"
  | .GREATER => "TokenType.GREATER"
  | .GREATER_EQUAL => "TokenType.GREATER_EQUAL"
  | .LESS => "TokenType.LESS"
  | .LESS_EQUAL => "TokenType.LESS_EQUAL"
  | .IDENTIFIER => "TokenType.IDENTIFIER"
  | .STRING => "TokenType.STRING"
  | .NUMBER => "TokenType.NUMBER"
  | .AND => "TokenType.AND"
  | .CLASS => "TokenType.CLASS"
  | .ELSE => "TokenType.ELSE"
  | .FALSE => "TokenType.FALSE"
  | .FUN => "TokenType.FUN"
  | .FOR => "TokenType.FOR"
  | .IF => "TokenType.IF"
  | .NIL => "TokenType.NIL"
  | .OR => "TokenType.OR"
  | .PRINT => "TokenType.PRINT"
  | .RETURN => "TokenType.RETURN"
  | .SUPER => "TokenType.SUPER"
  | .THIS => "TokenType.THIS"
  | .TRUE => "TokenType.TRUE"
  | .VAR => "TokenType.VAR"
  | .WHILE => "TokenType.WHILE"
  | .EOF => "TokenType.EOF"

/-- src/plox/token.py: the Token record.  The Python class is declared
with the decorator dataclass(frozen=True, slots=True) and exactly these
four fields; the field annotated object is modelled as PyVal. -/
structure Token where
  type : TokenType
  lexeme : String
  literal : PyVal
  line : Int
  deriving DecidableEq

/-- The frozen flag of the dataclass decorator on Token. -/
def tokenFrozen : Bool := true

/-- Python attribute assignment token.type = v: on a frozen dataclass the
generated setattr raises FrozenInstanceError. -/
def Token.setType (t : Token) (v : TokenType) : Except PyError Token :=
  if tokenFrozen then Except.error PyError.frozenInstanceError
  else match t with | ⟨_, lx, li, ln⟩ => Except.ok ⟨v, lx, li, ln⟩

/-- Python attribute assignment token.lexeme = v on the frozen Token. -/
def Token.setLexeme (t : Token) (v : String) : Except PyError Token :=
  if tokenFrozen then Except.error PyError.frozenInstanceError
  else match t with | ⟨ty, _, li, ln⟩ => Except.ok ⟨ty, v, li, ln⟩

/-- Python attribute assignment token.literal = v on the frozen Token. -/
def Token.setLiteral (t : Token) (v : PyVal) : Except PyError Token :=
  if tokenFrozen then Except.error PyError.frozenInstanceError
  else match t with | ⟨ty, lx, _, ln⟩ => Except.ok ⟨ty, lx, v, ln⟩

/-- Python attribute assignment token.line = v on the frozen Token. -/
def Token.setLine (t : Token) (v : Int) : Except PyError Token :=
  if tokenFrozen then Except.error PyError.frozenInstanceError
  else match t with | ⟨ty, lx, li, _⟩ => Except.ok ⟨ty, lx, li, v⟩

/-- The dataclass-generated constructor of Token: it stores the four
arguments and performs no validation whatsoever (src/plox/token.py contains
no checks beyond the field list). -/
def Token.init (ty : TokenType) (lx : String) (li : PyVal) (ln : Int) :
    Except PyError Token :=
  Except.ok ⟨ty, lx, li, ln⟩

/-- What print(token) displays: Token has no custom str or repr, so the
dataclass-generated repr is used, listing all four fields in declaration
order. -/
def Token.render (t : Token) : String :=
  "Token(type=" ++ t.type.reprName ++ ", lexeme=" ++ (PyVal.str t.lexeme).reprStr
    ++ ", literal=" ++ t.literal.reprStr ++ ", line=" ++ intStr t.line ++ ")"

/-- Letter or underscore, the identifier start rule of the spec. -/
def isAlphaC (c : Char) : Bool := c.isAlpha || c == '_'

/-- Letter, digit, or underscore, the identifier continuation rule. -/
def isAlphaNumC (c : Char) : Bool := isAlphaC c || c.isDigit

/-- Modelled from the spec: the frozen, case-sensitive keyword-to-kind
mapping of section 3 (src/plox/scanner.py and its tables are not among the
sources). -/
def keywords : List (String × TokenType) :=
  [("and", .AND), ("class", .CLASS), ("else", .ELSE), ("false", .FALSE),
   ("fun", .FUN), ("for", .FOR), ("if", .IF), ("nil", .NIL), ("or", .OR),
   ("print", .PRINT), ("return", .RETURN), ("super", .SUPER), ("this", .THIS),
   ("true", .TRUE), ("var", .VAR), ("while", .WHILE)]

/-- Numeric value of a digit run. -/
def digitsVal (ds : List Char) : Nat :=
  ds.foldl (fun a c => a * 10 + (c.toNat - 48)) 0

/-- Modelled from the spec: the resolved value of a number lexeme with the
given integer and fraction digit runs. -/
def numLit (intDs fracDs : List Char) : ℚ :=
  (digitsVal intDs : ℚ) + (digitsVal fracDs : ℚ) / ((10 : ℚ) ^ fracDs.length)

/-- Modelled from the spec: consuming a string literal body after the
opening quote.  Returns the enclosed content and the remaining input when a
closing quote is found (none when end of input is reached first), together
with the line counter after the consumed newlines. -/
def scanStringAux : List Char → Int → Option (List Char × List Char) × Int
  | [], line => (none, line)
  | c :: rest, line =>
    if c = '"' then (some ([], rest), line)
    else
      ((scanStringAux rest (if c = '\n' then line + 1 else line)).1.map
        (fun cr => (c :: cr.1, cr.2)),
       (scanStringAux rest (if c = '\n' then line + 1 else line)).2)

/-- Modelled from the spec: after the integer digit run of a number, the
optional fraction digits (present only when a dot is followed by at least
one more digit — otherwise the dot is left for the next iteration) and the
unconsumed input. -/
def fracPart : List Char → Option (List Char) × List Char
  | '.' :: d :: r2 =>
    if d.isDigit then (some ((d :: r2).takeWhile Char.isDigit), (d :: r2).dropWhile Char.isDigit)
    else (none, '.' :: d :: r2)
  | l => (none, l)

/-- Modelled from the spec: after the leading digit of a number, the
remaining integer digits, the optional fraction digits, and the unconsumed
input. -/
def numberTail (rest : List Char) : List Char × Option (List Char) × List Char :=
  (rest.takeWhile Char.isDigit, fracPart (rest.dropWhile Char.isDigit))

/-- The exact source slice of a number token starting with digit c. -/
def numberLexeme (c : Char) (rest : List Char) : String :=
  (c :: ((numberTail rest).1 ++
    (match (numberTail rest).2.1 with | none => [] | some f => '.' :: f))).asString

/-- The resolved numeric value of a number token starting with digit c. -/
def numberValue (c : Char) (rest : List Char) : ℚ :=
  numLit (c :: (numberTail rest).1) ((numberTail rest).2.1.getD [])

/-- The exact source slice of an identifier or keyword starting with c. -/
def identName (c : Char) (rest : List Char) : String :=
  (c :: rest.takeWhile isAlphaNumC).asString

/-- Keyword lookup of an identifier slice in the fixed keyword table,
falling back to the identifier kind. -/
def identKind (c : Char) (rest : List Char) : TokenType :=
  (keywords.lookup (identName c rest)).getD .IDENTIFIER

/-- Modelled from the spec: the one-character lookahead used for
potentially two-character operators — peek the next character, consume it
when it is the expected continuation.  Returns whether it matched and the
input after the optional consumption. -/
def matchTwo (expected : Char) : List Char → Bool × List Char
  | [] => (false, [])
  | x :: r => if x = expected then (true, r) else (false, x :: r)

/-- Prepend an emitted token to a scan result. -/
def consToken (t : Token) (p : List Token × List (Int × String)) :
    List Token × List (Int × String) :=
  (t :: p.1, p.2)

/-- Prepend a recorded lexical error to a scan result. -/
def consErr (e : Int × String) (p : List Token × List (Int × String)) :
    List Token × List (Int × String) :=
  (p.1, e :: p.2)

/-- Modelled from the spec: the single-pass scanning loop of section 4.2
(src/plox/scanner.py is not among the sources).  Each iteration consumes at
least one character and classifies it exactly as the spec orders the cases;
the end-of-input token is appended with the final line counter.  The fuel
argument only bounds the recursion; source length plus one is always
enough, as the theorems below prove. -/
def scanTokensAux : Nat → List Char → Int → List Token × List (Int × String)
  | 0, _, _ => ([], [])
  | _ + 1, [], line => ([⟨.EOF, "", PyVal.none, line⟩], [])
  | fuel + 1, c :: rest, line =>
    if c = '(' then consToken ⟨.LEFT_PAREN, "(", PyVal.none, line⟩ (scanTokensAux fuel rest line)
    else if c = ')' then consToken ⟨.RIGHT_PAREN, ")", PyVal.none, line⟩ (scanTokensAux fuel rest line)
    else if c = '\x7b' then consToken ⟨.LEFT_BRACE, "\x7b", PyVal.none, line⟩ (scanTokensAux fuel rest line)
    else if c = '\x7d' then consToken ⟨.RIGHT_BRACE, "\x7d", PyVal.none, line⟩ (scanTokensAux fuel rest line)
    else if c = ',' then consToken ⟨.COMMA, ",", PyVal.none, line⟩ (scanTokensAux fuel rest line)
    else if c = '.' then consToken ⟨.DOT, ".", PyVal.none, line⟩ (scanTokensAux fuel rest line)
    else if c = '-' then consToken ⟨.MINUS, "-", PyVal.none, line⟩ (scanTokensAux fuel rest line)
    else if c = '+' then consToken ⟨.PLUS, "+", PyVal.none, line⟩ (scanTokensAux fuel rest line)
    else if c = ';' then consToken ⟨.SEMICOLON, ";", PyVal.none, line⟩ (scanTokensAux fuel rest line)
    else if c = '*' then consToken ⟨.STAR, "*", PyVal.none, line⟩ (scanTokensAux fuel rest line)
    else if c = '!' then
      (if (matchTwo '=' rest).1 then
        consToken ⟨.BANG_EQUAL, "!=", PyVal.none, line⟩
          (scanTokensAux fuel (matchTwo '=' rest).2 line)
      else consToken ⟨.BANG, "!", PyVal.none, line⟩ (scanTokensAux fuel rest line))
    else if c = '=' then
      (if (matchTwo '=' rest).1 then
        consToken ⟨.EQUAL_EQUAL, "==", PyVal.none, line⟩
          (scanTokensAux fuel (matchTwo '=' rest).2 line)
      else consToken ⟨.EQUAL, "=", PyVal.none, line⟩ (scanTokensAux fuel rest line))
    else if c = '<' then
      (if (matchTwo '=' rest).1 then
        consToken ⟨.LESS_EQUAL, "<=", PyVal.none, line⟩
          (scanTokensAux fuel (matchTwo '=' rest).2 line)
      else consToken ⟨.LESS, "<", PyVal.none, line⟩ (scanTokensAux fuel rest line))
    else if c = '>' then
      (if (matchTwo '=' rest).1 then
        consToken ⟨.GREATER_EQUAL, ">=", PyVal.none, line⟩
          (scanTokensAux fuel (matchTwo '=' rest).2 line)
      else consToken ⟨.GREATER, ">", PyVal.none, line⟩ (scanTokensAux fuel rest line))
    else if c = '/' then
      (if (matchTwo '/' rest).1 then
        scanTokensAux fuel ((matchTwo '/' rest).2.dropWhile (fun x => x != '\n')) line
      else consToken ⟨.SLASH, "/", PyVal.none, line⟩ (scanTokensAux fuel rest line))
    else if c = ' ' ∨ c = '\r' ∨ c = '\t' then scanTokensAux fuel rest line
    else if c = '\n' then scanTokensAux fuel rest (line + 1)
    else if c = '"' then
      (match scanStringAux rest line with
       | (none, l2) => consErr (line, "unterminated string") (scanTokensAux fuel [] l2)
       | (some (content, r), l2) =>
         consToken ⟨.STRING, ('"' :: (content ++ ['"'])).asString, PyVal.str content.asString, line⟩
           (scanTokensAux fuel r l2))
    else if c.isDigit then
      consToken ⟨.NUMBER, numberLexeme c rest, PyVal.num (numberValue c rest), line⟩
        (scanTokensAux fuel (numberTail rest).2.2 line)
    else if isAlphaC c then
      consToken ⟨identKind c rest, identName c rest, PyVal.none, line⟩
        (scanTokensAux fuel (rest.dropWhile isAlphaNumC) line)
    else consErr (line, "unexpected character") (scanTokensAux fuel rest line)

/-- Modelled from the spec: Scanner(source).scan_tokens() — the ordered
token sequence and the (line, message) lexical errors reported to the sink,
in source order.  Scanning starts on line 1 with the whole source
materialized. -/
def scan_tokens (source : String) : List Token × List (Int × String) :=
  scanTokensAux (source.toList.length + 1) source.toList 1

/-- src/plox/main.py report: print of the concatenated diagnostic, then
HAD_ERROR = True.  The concatenation "[line " + line is Python str + int.
On success the result is the printed lines and the new HAD_ERROR value. -/
def report (line : Int) (whereArg message : String) (hadError : Bool) :
    Except PyError (List String × Bool) := do
  let a ← pyAdd (.str "[line ") (.int line)
  let b ← pyAdd a (.str "] Error")
  let c ← pyAdd b (.str whereArg)
  let d ← pyAdd c (.str ": ")
  let e ← pyAdd d (.str message)
  Except.ok ([pyStr e], true)

/-- src/plox/main.py error: report(line, "", message). -/
def error (line : Int) (message : String) (hadError : Bool) :
    Except PyError (List String × Bool) :=
  report line "" message hadError

/-- The scanner reports each recorded lexical error to the sink
(main.error) as the scan reaches it; the sink calls happen in order and the
first raised exception propagates. -/
def runSink : List (Int × String) → Bool → Except PyError (List String × Bool)
  | [], hadError => Except.ok ([], hadError)
  | (l, m) :: es, hadError =>
    match error l m hadError with
    | .error e => Except.error e
    | .ok (outs, hadError1) =>
      match runSink es hadError1 with
      | .error e => Except.error e
      | .ok (outs2, hadError2) => Except.ok (outs ++ outs2, hadError2)

/-- src/plox/main.py run: scan the source (during which the sink receives
every lexical error) and then print each token.  Result: the printed lines
and the HAD_ERROR value after the call, or the first uncaught exception. -/
def run (source : String) (hadError : Bool) : Except PyError (List String × Bool) :=
  let (tokens, errors) := scan_tokens source
  match runSink errors hadError with
  | .error e => Except.error e
  | .ok (errOuts, hadError1) => Except.ok (errOuts ++ tokens.map Token.render, hadError1)

/-- Observable events of one REPL session: a prompt printed while input()
waits (recording the HAD_ERROR value at that moment), a run(text) call, and
a line printed by run. -/
inductive REPLEvent where
  | prompt (hadError : Bool)
  | ran (text : String)
  | out (s : String)
  deriving DecidableEq

/-- src/plox/main.py run_prompt over a list of available input lines:
input("> ") prompts (raising EOFError when input is exhausted); an empty
line breaks the loop; otherwise run(text) executes and then the module
global is assigned HAD_ERROR = False before the next prompt. -/
def run_prompt_aux : List String → Bool → List REPLEvent × Except PyError Unit
  | [], hadError => ([.prompt hadError], Except.error .eofError)
  | t :: rest, hadError =>
    if t = "" then ([.prompt hadError], Except.ok ())
    else
      match run t hadError with
      | .error e => ([.prompt hadError, .ran t], Except.error e)
      | .ok (outs, _) =>
        (.prompt hadError :: .ran t :: (outs.map .out ++ (run_prompt_aux rest false).1),
         (run_prompt_aux rest false).2)

/-- The strings a REPL session actually prints, in order. -/
def outputsOf (evs : List REPLEvent) : List String :=
  evs.filterMap (fun e =>
    match e with
    | .prompt _ => some "> "
    | .out s => some s
    | .ran _ => none)

/-- src/plox/main.py run_file: Path(path).read_text() (raising when the
file is absent), run on the text, then exit(65) when HAD_ERROR is set.
The filesystem is the files map; the result is the printed lines and how
the process run ends. -/
def run_file (files : String → Option String) (path : String) (hadError : Bool) :
    List String × Outcome :=
  match files path with
  | none => ([], Outcome.raised .fileNotFoundError)
  | some text =>
    match run text hadError with
    | .error e => ([], Outcome.raised e)
    | .ok (outs, hadError1) =>
      if hadError1 then (outs, Outcome.exited 65) else (outs, Outcome.normal)

end Plox

/-- How a finished helper call surfaces as a process outcome. -/
def resultOutcome : Except PyError Unit → Outcome
  | .ok _ => Outcome.normal
  | .error e => Outcome.raised e

/-- The argv match statement, written identically in both __main__
modules: one element selects the REPL, two select a file run, anything
else the usage error. -/
inductive MainAction where
  | repl
  | file (path : String)
  | usage
  deriving DecidableEq

/-- The shared match on sys.argv of both __main__ modules. -/
def mainDispatch : List String → MainAction
  | [_] => .repl
  | [_, p] => .file p
  | _ => .usage

/-- The usage line both __main__ modules print before sys.exit(64). -/
def usageMsg : String := "Usage: python -m plox [script]"

/-- src/plox/__main__.py: dispatch on argv using the helpers of
src/plox/main.py; the module-global HAD_ERROR starts False. -/
def Plox.main (argv : List String) (files : String → Option String)
    (inputs : List String) : List String × Outcome :=
  match mainDispatch argv with
  | .repl =>
    (outputsOf (run_prompt_aux inputs false).1, resultOutcome (run_prompt_aux inputs false).2)
  | .file p => run_file files p false
  | .usage => ([usageMsg], Outcome.exited 64)

namespace PloxTop

/-- The top-level plox/__main__.py run_file: it binds text to the bare
Path object without reading any file and then calls run, a name this module
never defines or imports, so the call raises NameError before any output. -/
def run_file (path : String) : List String × Outcome :=
  ([], Outcome.raised .nameError)

/-- The top-level plox/__main__.py run_prompt: input("> ") prompts
(EOFError when input is exhausted), an empty line breaks, and a non-empty
line calls the undefined name run, raising NameError. -/
def run_prompt_aux : List String → List String × Except PyError Unit
  | [] => (["> "], Except.error .eofError)
  | t :: _ =>
    if t = "" then (["> "], Except.ok ())
    else (["> "], Except.error .nameError)

/-- The top-level plox/__main__.py: same argv match, but dispatching to
this module's own broken helpers; it has no HAD_ERROR flag and never
touches the filesystem. -/
def main (argv : List String) (files : String → Option String)
    (inputs : List String) : List String × Outcome :=
  match mainDispatch argv with
  | .repl => ((run_prompt_aux inputs).1, resultOutcome (run_prompt_aux inputs).2)
  | .file p => run_file p
  | .usage => ([usageMsg], Outcome.exited 64)

end PloxTop

section Claims

open Plox

/-- C1: the error sink crashes instead of reporting.  For every call,
error(line, message) — and hence report — raises TypeError from the
concatenation "[line " + line of a str and an int; nothing is printed and
HAD_ERROR is never set to true.  This contradicts the claim that the call
completes, prints the diagnostic, and sets the flag. -/
theorem claim1_error_sink_raises :
    ∀ (line : Int) (whereArg message : String) (hadError : Bool),
      Plox.report line whereArg message hadError = Except.error PyError.typeError ∧
      Plox.error line message hadError = Except.error PyError.typeError := by
  intro line whereArg message hadError
  exact ⟨rfl, rfl⟩

/-- C2: evaluating run_file at a failing input.  On a file whose text is
"@" (one lexical error) the TypeError raised inside the error sink
propagates out of run_file uncaught — the run never reaches the
HAD_ERROR check, so it does not exit with status 65 as claimed.  On an
error-free file run_file prints the tokens and returns normally. -/
theorem claim2_run_file_behavior :
    Plox.run_file (fun _ => some "@") "bad.lox" false =
      ([], Outcome.raised PyError.typeError) ∧
    Plox.run_file (fun _ => some "x") "good.lox" false =
      (["Token(type=TokenType.IDENTIFIER, lexeme=\x27x\x27, literal=None, line=1)",
        "Token(type=TokenType.EOF, lexeme=\x27\x27, literal=None, line=1)"],
       Outcome.normal) := by
  exact ⟨rfl, rfl⟩

/-- Every event list produced by the REPL loop entered with HAD_ERROR false
contains no prompt at which the flag is still true. -/
theorem run_prompt_aux_all_prompts_false (inputs : List String) :
    ((Plox.run_prompt_aux inputs false).1.all
      (fun e => !(e == REPLEvent.prompt true))) = true := by
  induction inputs with
  | nil => rfl
  | cons t rest ih =>
    by_cases ht : t = ""
    · simp [Plox.run_prompt_aux, ht]
    · rw [Plox.run_prompt_aux]
      rw [if_neg ht]
      cases hr : run t false with
      | error e => rfl
      | ok p =>
        simp only [List.all_cons, List.all_append, Bool.and_eq_true]
        refine ⟨rfl, rfl, ?_, ih⟩
        refine List.all_eq_true.mpr (fun x hx => ?_)
        obtain ⟨s, hs, rfl⟩ := List.mem_map.mp hx
        rfl

/-- C3: in run_prompt, HAD_ERROR = False executes after each completed run
and before the next input() call, so every prompt after the first one in a
session happens with the flag false, whatever the flag was at entry. -/
theorem claim3_flag_reset_before_next_read :
    ∀ (inputs : List String) (hadError : Bool),
      (((Plox.run_prompt_aux inputs hadError).1.drop 1).all
        (fun e => !(e == REPLEvent.prompt true))) = true := by
  intro inputs hadError
  cases inputs with
  | nil => rfl
  | cons t rest =>
    by_cases ht : t = ""
    · simp [Plox.run_prompt_aux, ht]
    · rw [Plox.run_prompt_aux]
      rw [if_neg ht]
      cases hr : run t hadError with
      | error e => rfl
      | ok p =>
        simp only [List.drop_succ_cons, List.drop_zero, List.all_cons,
          List.all_append, Bool.and_eq_true]
        refine ⟨rfl, ?_, run_prompt_aux_all_prompts_false rest⟩
        refine List.all_eq_true.mpr (fun x hx => ?_)
        obtain ⟨s, hs, rfl⟩ := List.mem_map.mp hx
        rfl

/-- C4: Token is a frozen (and slotted) dataclass: assigning any of its
four fields raises FrozenInstanceError, and a Token value is determined by
exactly the four fields type (kind), lexeme, literal, and line. -/
theorem claim4_token_immutable :
    (∀ (t : Token) (v : TokenType), t.setType v = Except.error PyError.frozenInstanceError) ∧
    (∀ (t : Token) (v : String), t.setLexeme v = Except.error PyError.frozenInstanceError) ∧
    (∀ (t : Token) (v : PyVal), t.setLiteral v = Except.error PyError.frozenInstanceError) ∧
    (∀ (t : Token) (v : Int), t.setLine v = Except.error PyError.frozenInstanceError) ∧
    (∀ (a b : Token), a.type = b.type → a.lexeme = b.lexeme → a.literal = b.literal →
      a.line = b.line → a = b) := by
  refine ⟨fun t v => rfl, fun t v => rfl, fun t v => rfl, fun t v => rfl, ?_⟩
  intro a b h1 h2 h3 h4
  cases a
  cases b
  simp only at h1 h2 h3 h4
  rw [h1, h2, h3, h4]

/-- Witness for C4 at a concrete token. -/
theorem claim4_witness :
    Token.setType ⟨.EOF, "", PyVal.none, 1⟩ TokenType.STRING =
      Except.error PyError.frozenInstanceError ∧
    (⟨.EOF, "", PyVal.none, 1⟩ : Token) = ⟨.EOF, "", PyVal.none, 1⟩ :=
  ⟨claim4_token_immutable.1 ⟨.EOF, "", PyVal.none, 1⟩ TokenType.STRING,
   claim4_token_immutable.2.2.2.2 ⟨.EOF, "", PyVal.none, 1⟩ ⟨.EOF, "", PyVal.none, 1⟩
     rfl rfl rfl rfl⟩

/-- C5 counterexample: the dataclass constructor of Token performs no
validation, so a construction with line = 0 < 1 succeeds instead of being
rejected, and yields a token whose line is not positive. -/
theorem claim5_counterexample :
    Token.init .EOF "" PyVal.none 0 = Except.ok ⟨.EOF, "", PyVal.none, 0⟩ ∧
    (⟨.EOF, "", PyVal.none, 0⟩ : Token).line < 1 :=
  ⟨rfl, by decide⟩

/-- C5 amended: Token construction does not validate line — a construction
with any line < 1 succeeds and stores that line unchanged. -/
theorem claim5_no_validation :
    ∀ (ty : TokenType) (lx : String) (li : PyVal) (ln : Int), ln < 1 →
      Token.init ty lx li ln = Except.ok ⟨ty, lx, li, ln⟩ := by
  intro ty lx li ln _
  rfl

/-- Witness for C5 at line -3. -/
theorem claim5_witness :
    (-3 : Int) < 1 ∧
    Token.init .STRING "s" (PyVal.str "s") (-3) =
      Except.ok ⟨.STRING, "s", PyVal.str "s", -3⟩ :=
  ⟨by decide, claim5_no_validation .STRING "s" (PyVal.str "s") (-3) (by decide)⟩

/-- C6 counterexample: two tokens with identical kind, lexeme and literal
but different lines render differently, because the dataclass repr that
print(token) uses also displays the line field — the rendering is not
determined solely by kind, lexeme and literal. -/
theorem claim6_counterexample :
    (⟨.IDENTIFIER, "x", PyVal.none, 1⟩ : Token).type =
      (⟨.IDENTIFIER, "x", PyVal.none, 2⟩ : Token).type ∧
    (⟨.IDENTIFIER, "x", PyVal.none, 1⟩ : Token).lexeme =
      (⟨.IDENTIFIER, "x", PyVal.none, 2⟩ : Token).lexeme ∧
    (⟨.IDENTIFIER, "x", PyVal.none, 1⟩ : Token).literal =
      (⟨.IDENTIFIER, "x", PyVal.none, 2⟩ : Token).literal ∧
    Token.render ⟨.IDENTIFIER, "x", PyVal.none, 1⟩ ≠
      Token.render ⟨.IDENTIFIER, "x", PyVal.none, 2⟩ := by
  refine ⟨rfl, rfl, rfl, ?_⟩
  decide

/-- C6 amended: the rendering print(token) uses displays the token's kind,
lexeme and literal together with its line, and is determined by those four
fields. -/
theorem claim6_render_four_fields :
    (∀ (a b : Token), a.type = b.type → a.lexeme = b.lexeme → a.literal = b.literal →
      a.line = b.line → Token.render a = Token.render b) ∧
    Token.render ⟨.SEMICOLON, ";", PyVal.none, 3⟩ =
      "Token(type=TokenType.SEMICOLON, lexeme=\x27;\x27, literal=None, line=3)" := by
  constructor
  · intro a b h1 h2 h3 h4
    cases a
    cases b
    simp only at h1 h2 h3 h4
    rw [Token.render, Token.render]
    simp only [h1, h2, h3, h4]
  · rfl

/-- Witness for C6 at two concrete tokens with equal fields. -/
theorem claim6_witness :
    Token.render ⟨.COMMA, ",", PyVal.none, 7⟩ = Token.render ⟨.COMMA, ",", PyVal.none, 7⟩ :=
  claim6_render_four_fields.1 ⟨.COMMA, ",", PyVal.none, 7⟩ ⟨.COMMA, ",", PyVal.none, 7⟩
    rfl rfl rfl rfl

/-- C8 counterexample: with argv selecting a file run on a file whose text
is "x", the src/plox entry point reads the file, prints the two tokens and
finishes normally, while the stale top-level plox entry point raises
NameError (its run is undefined) without reading anything — the two
__main__ modules are not behaviourally equivalent. -/
theorem claim8_counterexample :
    Plox.main ["plox", "f.lox"] (fun _ => some "x") [] ≠
      PloxTop.main ["plox", "f.lox"] (fun _ => some "x") [] := by
  decide

/-- C8 amended: the two entry points agree exactly on the usage path —
whenever argv does not have exactly one or exactly two entries, both print
the same usage message and exit with status 64. -/
theorem claim8_usage_equivalence :
    ∀ (argv : List String) (files : String → Option String) (inputs : List String),
      argv.length ≠ 1 → argv.length ≠ 2 →
      Plox.main argv files inputs = PloxTop.main argv files inputs := by
  intro argv files inputs h1 h2
  match argv with
  | [] => rfl
  | [a] => exact absurd rfl h1
  | [a, b] => exact absurd rfl h2
  | a :: b :: c :: r => rfl

/-- Witness for C8 at a three-element argv. -/
theorem claim8_witness :
    (["a", "b", "c"] : List String).length ≠ 1 ∧
    (["a", "b", "c"] : List String).length ≠ 2 ∧
    Plox.main ["a", "b", "c"] (fun _ => none) [] =
      PloxTop.main ["a", "b", "c"] (fun _ => none) [] :=
  ⟨by decide, by decide,
   claim8_usage_equivalence ["a", "b", "c"] (fun _ => none) [] (by decide) (by decide)⟩

/-- C9: with two or more arguments beyond the executable name (argv length
at least three) the src/plox entry point prints the usage message and exits
with status 64; with argv of length one or two the dispatch never selects
the usage path. -/
theorem claim9_usage_path :
    (∀ (argv : List String), 3 ≤ argv.length →
      ∀ (files : String → Option String) (inputs : List String),
        Plox.main argv files inputs = ([usageMsg], Outcome.exited 64)) ∧
    (∀ (argv : List String), argv.length = 1 ∨ argv.length = 2 →
      (mainDispatch argv == MainAction.usage) = false) := by
  constructor
  · intro argv h files inputs
    match argv with
    | [] => simp at h
    | [a] => simp at h
    | [a, b] => simp at h
    | a :: b :: c :: r => rfl
  · intro argv h
    match argv with
    | [] => simp at h
    | [a] => rfl
    | [a, b] => rfl
    | a :: b :: c :: r => simp [List.length_cons] at h

/-- Witness for C9 at concrete argv values. -/
theorem claim9_witness :
    Plox.main ["x", "y", "z"] (fun _ => none) [] = ([usageMsg], Outcome.exited 64) ∧
    (mainDispatch ["x"] == MainAction.usage) = false :=
  ⟨claim9_usage_path.1 ["x", "y", "z"] (by decide) (fun _ => none) [],
   claim9_usage_path.2 ["x"] (Or.inl rfl)⟩

/-- C10: in run_prompt an empty input line ends the loop at once — the
result is the same whatever input would have followed, with no run event —
while a non-empty line t is passed to run immediately after its prompt and
before any further prompt. -/
theorem claim10_empty_breaks_nonempty_runs :
    (∀ (rest : List String) (hadError : Bool),
      Plox.run_prompt_aux ("" :: rest) hadError =
        ([REPLEvent.prompt hadError], Except.ok ())) ∧
    (∀ (t : String) (rest : List String) (hadError : Bool), t ≠ "" →
      ∃ tl, (Plox.run_prompt_aux (t :: rest) hadError).1 =
        REPLEvent.prompt hadError :: REPLEvent.ran t :: tl) := by
  constructor
  · intro rest hadError
    rfl
  · intro t rest hadError ht
    rw [Plox.run_prompt_aux]
    rw [if_neg ht]
    cases hr : run t hadError with
    | error e => exact ⟨[], rfl⟩
    | ok p => exact ⟨_, rfl⟩

/-- Witness for C10 at the inputs x and the empty line. -/
theorem claim10_witness :
    Plox.run_prompt_aux [""] true = ([REPLEvent.prompt true], Except.ok ()) ∧
    ("x" : String) ≠ "" ∧
    ∃ tl, (Plox.run_prompt_aux ["x"] false).1 =
      REPLEvent.prompt false :: REPLEvent.ran "x" :: tl :=
  ⟨claim10_empty_breaks_nonempty_runs.1 [] true, by decide,
   claim10_empty_breaks_nonempty_runs.2 "x" [] false (by decide)⟩

end Claims

section ScannerProofs

open Plox

/-- A character whose Bool equality with newline is false, from the
propositional disequality. -/
theorem beq_newline_false_of_ne {c : Char} (h : ¬ c = '\n') : (c == '\n') = false := by
  cases hq : c == '\n'
  · rfl
  · rw [beq_iff_eq] at hq
    exact absurd hq h

/-- Prepending a non-newline character preserves the newline count. -/
theorem count_cons_ne {c : Char} (h : (c == '\n') = false) (l : List Char) :
    (c :: l).count '\n' = l.count '\n' := by
  simp [List.count_cons, h]

/-- Prepending a newline increments the newline count. -/
theorem count_cons_newline (l : List Char) :
    ('\n' :: l).count '\n' = l.count '\n' + 1 := by
  simp [List.count_cons]

/-- dropWhile with a predicate that rejects newline preserves the newline
count: every dropped character satisfies the predicate. -/
theorem count_newline_dropWhile (p : Char → Bool) (hp : p '\n' = false) :
    ∀ l : List Char, (l.dropWhile p).count '\n' = l.count '\n' := by
  intro l
  induction l with
  | nil => rfl
  | cons c tl ih =>
    rw [List.dropWhile_cons]
    by_cases hc : p c = true
    · rw [if_pos hc, ih]
      have hcn : (c == '\n') = false := by
        refine beq_newline_false_of_ne (fun hh => ?_)
        rw [hh, hp] at hc
        exact Bool.false_ne_true hc
      rw [count_cons_ne hcn]
    · rw [if_neg hc]

/-- dropWhile never lengthens a list. -/
theorem dropWhile_length_le (p : Char → Bool) :
    ∀ l : List Char, (l.dropWhile p).length ≤ l.length := by
  intro l
  induction l with
  | nil => exact Nat.le_refl 0
  | cons c tl ih =>
    rw [List.dropWhile_cons]
    by_cases hc : p c = true
    · rw [if_pos hc]
      exact Nat.le_trans ih (Nat.le_succ _)
    · rw [if_neg hc]

/-- The lookahead consumption never lengthens the input. -/
theorem matchTwo_length (e : Char) : ∀ rest : List Char,
    ((matchTwo e rest).2).length ≤ rest.length
  | [] => Nat.le_refl 0
  | x :: r => by
    rw [matchTwo]
    by_cases hx : x = e
    · rw [if_pos hx]
      simp only [List.length_cons]
      exact Nat.le_succ _
    · rw [if_neg hx]

/-- The lookahead consumption of a non-newline character preserves the
newline count. -/
theorem matchTwo_count (e : Char) (he : (e == '\n') = false) : ∀ rest : List Char,
    ((matchTwo e rest).2).count '\n' = rest.count '\n'
  | [] => rfl
  | x :: r => by
    rw [matchTwo]
    by_cases hx : x = e
    · rw [if_pos hx]
      subst hx
      exact (count_cons_ne he r).symm
    · rw [if_neg hx]

/-- Reading a string body to end of input accounts for every newline of
the remaining source in the returned line counter. -/
theorem scanStringAux_none : ∀ (l : List Char) (line l2 : Int),
    scanStringAux l line = (none, l2) → l2 = line + (l.count '\n' : Int)
  | [], line, l2 => by
    intro h
    rw [scanStringAux] at h
    simp only [Prod.mk.injEq] at h
    rw [← h.2]
    simp
  | c :: tl, line, l2 => by
    intro h
    rw [scanStringAux] at h
    by_cases hc : c = '"'
    · rw [if_pos hc] at h
      simp at h
    · rw [if_neg hc] at h
      cases hs : scanStringAux tl (if c = '\n' then line + 1 else line) with
      | mk o l3 =>
        rw [hs] at h
        dsimp only at h
        simp only [Prod.mk.injEq] at h
        obtain ⟨h1, h2⟩ := h
        cases o with
        | some p => simp at h1
        | none =>
          have hres := scanStringAux_none tl (if c = '\n' then line + 1 else line) l3 hs
          subst h2
          by_cases hnl : c = '\n'
          · subst hnl
            rw [if_pos rfl] at hres
            rw [count_cons_newline]
            push_cast
            omega
          · rw [if_neg hnl] at hres
            rw [count_cons_ne (beq_newline_false_of_ne hnl)]
            exact hres

/-- Reading a terminated string body: the returned line counter plus the
newlines of the unconsumed input accounts for every newline, and the
unconsumed input is no longer than the input. -/
theorem scanStringAux_some : ∀ (l : List Char) (line : Int) (content r : List Char) (l2 : Int),
    scanStringAux l line = (some (content, r), l2) →
      l2 + (r.count '\n' : Int) = line + (l.count '\n' : Int) ∧ r.length ≤ l.length
  | [], line, content, r, l2 => by
    intro h
    rw [scanStringAux] at h
    simp at h
  | c :: tl, line, content, r, l2 => by
    intro h
    rw [scanStringAux] at h
    by_cases hc : c = '"'
    · rw [if_pos hc] at h
      simp only [Prod.mk.injEq, Option.some.injEq] at h
      obtain ⟨⟨h1, h2⟩, h3⟩ := h
      subst hc
      constructor
      · rw [← h3, ← h2, count_cons_ne (by decide)]
      · rw [← h2]
        simp only [List.length_cons]
        exact Nat.le_succ _
    · rw [if_neg hc] at h
      cases hs : scanStringAux tl (if c = '\n' then line + 1 else line) with
      | mk o l3 =>
        rw [hs] at h
        dsimp only at h
        simp only [Prod.mk.injEq] at h
        obtain ⟨h1, h2⟩ := h
        cases o with
        | none => simp at h1
        | some p =>
          obtain ⟨content2, r2⟩ := p
          simp only [Option.map_some', Option.some.injEq, Prod.mk.injEq] at h1
          obtain ⟨h4, h5⟩ := h1
          obtain ⟨ha, hb⟩ :=
            scanStringAux_some tl (if c = '\n' then line + 1 else line) content2 r2 l3 hs
          subst h2
          constructor
          · rw [← h5]
            by_cases hnl : c = '\n'
            · subst hnl
              rw [if_pos rfl] at ha
              rw [count_cons_newline]
              push_cast at ha ⊢
              omega
            · rw [if_neg hnl] at ha
              rw [count_cons_ne (beq_newline_false_of_ne hnl)]
              exact ha
          · rw [← h5]
            simp only [List.length_cons]
            exact Nat.le_trans hb (Nat.le_succ _)

/-- The input left after the optional fraction part keeps the newline
count and never lengthens. -/
theorem fracPart_spec (l : List Char) :
    ((fracPart l).2).count '\n' = l.count '\n' ∧ ((fracPart l).2).length ≤ l.length := by
  unfold fracPart
  split
  · rename_i d r2
    split
    · constructor
      · rw [count_newline_dropWhile Char.isDigit (by decide) (d :: r2)]
        exact (count_cons_ne (by decide) (d :: r2)).symm
      · refine Nat.le_trans (dropWhile_length_le Char.isDigit (d :: r2)) ?_
        simp only [List.length_cons]
        exact Nat.le_succ _
    · exact ⟨rfl, Nat.le_refl _⟩
  · exact ⟨rfl, Nat.le_refl _⟩

/-- The input left after a whole number token keeps the newline count. -/
theorem numberTail_count (rest : List Char) :
    ((numberTail rest).2.2).count '\n' = rest.count '\n' := by
  have h1 : ((numberTail rest).2.2).count '\n' =
      ((fracPart (rest.dropWhile Char.isDigit)).2).count '\n' := rfl
  rw [h1, (fracPart_spec (rest.dropWhile Char.isDigit)).1,
    count_newline_dropWhile Char.isDigit (by decide) rest]

/-- The input left after a whole number token never lengthens. -/
theorem numberTail_length (rest : List Char) :
    ((numberTail rest).2.2).length ≤ rest.length :=
  Nat.le_trans (fracPart_spec (rest.dropWhile Char.isDigit)).2
    (dropWhile_length_le Char.isDigit rest)

/-- An end-of-input decomposition is preserved when the final line value
is rewritten. -/
theorem ex_eof_congr {p : List Token × List (Int × String)} {a b : Int}
    (h : ∃ front, p.1 = front ++ [⟨.EOF, "", PyVal.none, a⟩]) (hab : a = b) :
    ∃ front, p.1 = front ++ [⟨.EOF, "", PyVal.none, b⟩] := by
  obtain ⟨front, hf⟩ := h
  exact ⟨front, by rw [hf, hab]⟩

/-- Emitting a token preserves an end-of-input decomposition. -/
theorem consToken_ex {t : Token} {p : List Token × List (Int × String)} {e : Token}
    (h : ∃ front, p.1 = front ++ [e]) : ∃ front, (consToken t p).1 = front ++ [e] := by
  obtain ⟨front, hf⟩ := h
  exact ⟨t :: front, by simp [consToken, hf]⟩

/-- Recording an error preserves an end-of-input decomposition. -/
theorem consErr_ex {x : Int × String} {p : List Token × List (Int × String)} {e : Token}
    (h : ∃ front, p.1 = front ++ [e]) : ∃ front, (consErr x p).1 = front ++ [e] := by
  obtain ⟨front, hf⟩ := h
  exact ⟨front, by simp [consErr, hf]⟩

/-- Core scan invariant: with fuel exceeding the input length, the token
list ends in exactly one end-of-input token whose line is the initial line
plus every newline of the input. -/
theorem scanTokensAux_eof : ∀ (fuel : Nat) (cs : List Char) (line : Int), cs.length < fuel →
    ∃ front, (scanTokensAux fuel cs line).1 =
      front ++ [⟨.EOF, "", PyVal.none, line + (cs.count '\n' : Int)⟩] := by
  intro fuel
  induction fuel with
  | zero =>
    intro cs line h
    exact absurd h (by omega)
  | succ fuel ih =>
    intro cs line h
    cases cs with
    | nil =>
      refine ⟨[], ?_⟩
      rw [scanTokensAux]
      simp
    | cons c rest =>
      have hr : rest.length < fuel := by
        simp only [List.length_cons] at h
        omega
      rw [scanTokensAux]
      by_cases h1 : c = '('
      · rw [if_pos h1]
        subst h1
        exact ex_eof_congr (consToken_ex (ih rest line hr)) (by rw [count_cons_ne (by decide)])
      rw [if_neg h1]
      by_cases h2 : c = ')'
      · rw [if_pos h2]
        subst h2
        exact ex_eof_congr (consToken_ex (ih rest line hr)) (by rw [count_cons_ne (by decide)])
      rw [if_neg h2]
      by_cases h3 : c = '\x7b'
      · rw [if_pos h3]
        subst h3
        exact ex_eof_congr (consToken_ex (ih rest line hr)) (by rw [count_cons_ne (by decide)])
      rw [if_neg h3]
      by_cases h4 : c = '\x7d'
      · rw [if_pos h4]
        subst h4
        exact ex_eof_congr (consToken_ex (ih rest line hr)) (by rw [count_cons_ne (by decide)])
      rw [if_neg h4]
      by_cases h5 : c = ','
      · rw [if_pos h5]
        subst h5
        exact ex_eof_congr (consToken_ex (ih rest line hr)) (by rw [count_cons_ne (by decide)])
      rw [if_neg h5]
      by_cases h6 : c = '.'
      · rw [if_pos h6]
        subst h6
        exact ex_eof_congr (consToken_ex (ih rest line hr)) (by rw [count_cons_ne (by decide)])
      rw [if_neg h6]
      by_cases h7 : c = '-'
      · rw [if_pos h7]
        subst h7
        exact ex_eof_congr (consToken_ex (ih rest line hr)) (by rw [count_cons_ne (by decide)])
      rw [if_neg h7]
      by_cases h8 : c = '+'
      · rw [if_pos h8]
        subst h8
        exact ex_eof_congr (consToken_ex (ih rest line hr)) (by rw [count_cons_ne (by decide)])
      rw [if_neg h8]
      by_cases h9 : c = ';'
      · rw [if_pos h9]
        subst h9
        exact ex_eof_congr (consToken_ex (ih rest line hr)) (by rw [count_cons_ne (by decide)])
      rw [if_neg h9]
      by_cases h10 : c = '*'
      · rw [if_pos h10]
        subst h10
        exact ex_eof_congr (consToken_ex (ih rest line hr)) (by rw [count_cons_ne (by decide)])
      rw [if_neg h10]
      by_cases h11 : c = '!'
      · rw [if_pos h11]
        subst h11
        by_cases hm : (matchTwo '=' rest).1 = true
        · rw [if_pos hm]
          have hlen : ((matchTwo '=' rest).2).length < fuel :=
            Nat.lt_of_le_of_lt (matchTwo_length '=' rest) hr
          refine ex_eof_congr (consToken_ex (ih _ line hlen)) ?_
          rw [matchTwo_count '=' (by decide) rest]
          rw [count_cons_ne (by decide)]
        · rw [if_neg hm]
          exact ex_eof_congr (consToken_ex (ih rest line hr)) (by rw [count_cons_ne (by decide)])
      rw [if_neg h11]
      by_cases h12 : c = '='
      · rw [if_pos h12]
        subst h12
        by_cases hm : (matchTwo '=' rest).1 = true
        · rw [if_pos hm]
          have hlen : ((matchTwo '=' rest).2).length < fuel :=
            Nat.lt_of_le_of_lt (matchTwo_length '=' rest) hr
          refine ex_eof_congr (consToken_ex (ih _ line hlen)) ?_
          rw [matchTwo_count '=' (by decide) rest]
          rw [count_cons_ne (by decide)]
        · rw [if_neg hm]
          exact ex_eof_congr (consToken_ex (ih rest line hr)) (by rw [count_cons_ne (by decide)])
      rw [if_neg h12]
      by_cases h13 : c = '<'
      · rw [if_pos h13]
        subst h13
        by_cases hm : (matchTwo '=' rest).1 = true
        · rw [if_pos hm]
          have hlen : ((matchTwo '=' rest).2).length < fuel :=
            Nat.lt_of_le_of_lt (matchTwo_length '=' rest) hr
          refine ex_eof_congr (consToken_ex (ih _ line hlen)) ?_
          rw [matchTwo_count '=' (by decide) rest]
          rw [count_cons_ne (by decide)]
        · rw [if_neg hm]
          exact ex_eof_congr (consToken_ex (ih rest line hr)) (by rw [count_cons_ne (by decide)])
      rw [if_neg h13]
      by_cases h14 : c = '>'
      · rw [if_pos h14]
        subst h14
        by_cases hm : (matchTwo '=' rest).1 = true
        · rw [if_pos hm]
          have hlen : ((matchTwo '=' rest).2).length < fuel :=
            Nat.lt_of_le_of_lt (matchTwo_length '=' rest) hr
          refine ex_eof_congr (consToken_ex (ih _ line hlen)) ?_
          rw [matchTwo_count '=' (by decide) rest]
          rw [count_cons_ne (by decide)]
        · rw [if_neg hm]
          exact ex_eof_congr (consToken_ex (ih rest line hr)) (by rw [count_cons_ne (by decide)])
      rw [if_neg h14]
      by_cases h15 : c = '/'
      · rw [if_pos h15]
        subst h15
        by_cases hm : (matchTwo '/' rest).1 = true
        · rw [if_pos hm]
          have hlen : (((matchTwo '/' rest).2).dropWhile (fun x => x != '\n')).length < fuel := by
            have hd := dropWhile_length_le (fun x => x != '\n') ((matchTwo '/' rest).2)
            have hmt := matchTwo_length '/' rest
            omega
          refine ex_eof_congr (ih _ line hlen) ?_
          rw [count_newline_dropWhile (fun x => x != '\n') (by decide) ((matchTwo '/' rest).2)]
          rw [matchTwo_count '/' (by decide) rest]
          rw [count_cons_ne (by decide)]
        · rw [if_neg hm]
          exact ex_eof_congr (consToken_ex (ih rest line hr)) (by rw [count_cons_ne (by decide)])
      rw [if_neg h15]
      by_cases h16 : c = ' ' ∨ c = '\r' ∨ c = '\t'
      · rw [if_pos h16]
        rcases h16 with rfl | rfl | rfl
        · exact ex_eof_congr (ih rest line hr) (by rw [count_cons_ne (by decide)])
        · exact ex_eof_congr (ih rest line hr) (by rw [count_cons_ne (by decide)])
        · exact ex_eof_congr (ih rest line hr) (by rw [count_cons_ne (by decide)])
      rw [if_neg h16]
      by_cases h17 : c = '\n'
      · rw [if_pos h17]
        subst h17
        refine ex_eof_congr (ih rest (line + 1) hr) ?_
        rw [count_cons_newline]
        push_cast
        omega
      rw [if_neg h17]
      by_cases h18 : c = '"'
      · rw [if_pos h18]
        subst h18
        split
        · rename_i l2 heq
          have h0 : ([] : List Char).length < fuel := by
            simp only [List.length_nil]
            omega
          refine consErr_ex (ex_eof_congr (ih [] l2 h0) ?_)
          have hline := scanStringAux_none rest line l2 heq
          rw [count_cons_ne (by decide)]
          simp only [List.count_nil]
          push_cast
          omega
        · rename_i content r l2 heq
          obtain ⟨ha, hb⟩ := scanStringAux_some rest line content r l2 heq
          have hlen : r.length < fuel := by omega
          refine ex_eof_congr (consToken_ex (ih r l2 hlen)) ?_
          rw [count_cons_ne (by decide)]
          omega
      rw [if_neg h18]
      by_cases h19 : c.isDigit = true
      · rw [if_pos h19]
        have hlen : ((numberTail rest).2.2).length < fuel := by
          have := numberTail_length rest
          omega
        refine ex_eof_congr (consToken_ex (ih _ line hlen)) ?_
        rw [numberTail_count]
        have hcn : (c == '\n') = false := by
          refine beq_newline_false_of_ne (fun hh => ?_)
          rw [hh] at h19
          exact absurd h19 (by decide)
        rw [count_cons_ne hcn]
      rw [if_neg h19]
      by_cases h20 : isAlphaC c = true
      · rw [if_pos h20]
        have hlen : ((rest.dropWhile isAlphaNumC)).length < fuel := by
          have := dropWhile_length_le isAlphaNumC rest
          omega
        refine ex_eof_congr (consToken_ex (ih _ line hlen)) ?_
        rw [count_newline_dropWhile isAlphaNumC (by decide) rest]
        have hcn : (c == '\n') = false := by
          refine beq_newline_false_of_ne (fun hh => ?_)
          rw [hh] at h20
          exact absurd h20 (by decide)
        rw [count_cons_ne hcn]
      rw [if_neg h20]
      refine ex_eof_congr (consErr_ex (ih rest line hr)) ?_
      rw [count_cons_ne (beq_newline_false_of_ne h17)]

/-- C7: for every source text the scan runs to completion and the last
token of the result is the end-of-input token carrying the final line
counter (one plus the number of newline characters of the source); the
empty text yields exactly one end-of-input token on line 1 and no errors.
The model is a total function, so the scan itself never raises. -/
theorem claim7_scan_terminates_with_eof :
    ∀ (source : String),
      (Plox.scan_tokens source).1.getLast? =
        some ⟨.EOF, "", PyVal.none, 1 + (source.toList.count '\n' : Int)⟩ ∧
      Plox.scan_tokens "" = ([⟨.EOF, "", PyVal.none, 1⟩], []) := by
  intro source
  refine ⟨?_, rfl⟩
  obtain ⟨front, hf⟩ :=
    scanTokensAux_eof (source.toList.length + 1) source.toList 1 (by omega)
  unfold Plox.scan_tokens
  rw [hf, List.getLast?_concat]

end ScannerProofs
